import Mathlib

/-!
Verification of the SourceMember package generator
(`src/process_sourcemember_app.py`).  The Python program is shallowly
embedded: `generate_soql`, `run_tooling_query`, `save_to_csv` and
`generate_package_xml` of class `SalesforceQueryTool` become Lean
functions over explicit data, and the body of the final-query button
handler of `main` becomes a state-passing function over an explicit
file-system state.  Python `str.format` (applied by `generate_soql` as
its last step) is modelled by a character automaton `pyFormatGo`;
Python dicts are insertion-ordered association lists; Python sets are
modelled as insertion-ordered duplicate-free lists.
-/

/-- The opening-brace character of a Python `str.format` replacement field. -/
def lbrace : Char := '\x7b'

/-- The closing-brace character of a Python `str.format` replacement field. -/
def rbrace : Char := '\x7d'

/-- Python `str(x)` for an optional string: `None` prints as "None". -/
def pyStr : Option String → String
  | none => "None"
  | some s => s

/-- Python `sep.join(xs)`. -/
def pyJoin (sep : String) : List String → String
  | [] => ""
  | s :: rest => if rest.isEmpty then s else s ++ sep ++ pyJoin sep rest

/-- Scanner state of the `str.format` automaton: copying plain text, just
after an opening brace, inside a replacement-field name, or just after a
closing brace. -/
inductive FmtMode : Type
  | copy : FmtMode
  | sawOpen : FmtMode
  | field (name : List Char) : FmtMode
  | sawClose : FmtMode

/-- One left-to-right pass of Python `str.format` with keyword fields
`f` (plain replacement fields only, which is all the program uses):
doubled braces escape, an unmatched brace or an unknown field name is an
exception (`none`). -/
def pyFormatGo (f : List (String × String)) : FmtMode → List Char → Option (List Char)
  | .copy, [] => some []
  | .copy, c :: rest =>
    if c = lbrace then pyFormatGo f .sawOpen rest
    else if c = rbrace then pyFormatGo f .sawClose rest
    else (pyFormatGo f .copy rest).map (fun t => c :: t)
  | .sawOpen, [] => none
  | .sawOpen, c :: rest =>
    if c = lbrace then (pyFormatGo f .copy rest).map (fun t => lbrace :: t)
    else if c = rbrace then
      match f.lookup (String.mk []) with
      | none => none
      | some v => (pyFormatGo f .copy rest).map (fun t => v.data ++ t)
    else pyFormatGo f (.field [c]) rest
  | .field _, [] => none
  | .field name, c :: rest =>
    if c = rbrace then
      match f.lookup (String.mk name) with
      | none => none
      | some v => (pyFormatGo f .copy rest).map (fun t => v.data ++ t)
    else pyFormatGo f (.field (name ++ [c])) rest
  | .sawClose, [] => none
  | .sawClose, c :: rest =>
    if c = rbrace then (pyFormatGo f .copy rest).map (fun t => rbrace :: t)
    else none

/-- Python `s.format(**f)`: `none` models a raised exception. -/
def pyFormat (f : List (String × String)) (s : String) : Option String :=
  (pyFormatGo f .copy s.data).map String.mk

/-- The SOQL template assembled by `generate_soql` before formatting
(the adjacent Python string literals of lines 34-39 concatenated),
holding the replacement field for `user_did_change`. -/
def soqlTemplate : String :=
  "SELECT Id, LastModifiedBy.Name, MemberIdOrName, MemberType, MemberName, RevisionNum, RevisionCounter, IsNameObsolete, LastModifiedById, IsNewMember, ChangedBy FROM SourceMember WHERE LastModifiedBy.Name = '\x7buser_did_change\x7d'"

/-- `SalesforceQueryTool.generate_soql` (lines 27-45): appends the
`IN` clause when `member_types` is truthy (nonempty), then applies
`str.format` to the whole string as its final step.  `none` models a
raised exception. -/
def generate_soql (user_did_change : Option String) (member_types : List String) : Option String :=
  let query := soqlTemplate
  let query :=
    if member_types.isEmpty then query
    else query ++ " AND MemberType IN ('" ++ pyJoin "', '" member_types ++ "')"
  pyFormat [("user_did_change", pyStr user_did_change)] query

set_option maxRecDepth 20000

/-- One record of the Tooling-API `records` array (a JSON object), as an
insertion-ordered association list of string fields. -/
abbrev PyDict : Type := List (String × String)

/-- Python `d[k]` on an association list made from a JSON object or a CSV
row: the first binding of `k`, `none` modelling a `KeyError`. -/
def dictGetStr : PyDict → String → Option String
  | [], _ => none
  | p :: m, k => if p.1 = k then some p.2 else dictGetStr m k

/-- Lookup in a Python dict mapping strings to sets of strings
(`members_mapping` / `name_mapping`). -/
def dictGet : List (String × List String) → String → Option (List String)
  | [], _ => none
  | p :: m, k => if p.1 = k then some p.2 else dictGet m k

/-- Python `s.add(x)` on a set modelled as an insertion-ordered
duplicate-free list. -/
def setAdd (l : List String) (x : String) : List String :=
  if x ∈ l then l else l ++ [x]

/-- Python `m.setdefault(k, set()).add(x)`: update the set bound to `k`
in place, or append a new binding `k ↦ {x}`. -/
def mapAdd (m : List (String × List String)) (k x : String) : List (String × List String) :=
  if k ∈ m.map Prod.fst then
    m.map (fun p => if p.1 = k then (p.1, setAdd p.2 x) else p)
  else m ++ [(k, [x])]

/-- One CSV row of the flat output, reduced to the two columns the
aggregator reads (lines 107-108). -/
structure SMRow : Type where
  MemberType : String
  MemberName : String
deriving DecidableEq

/-- The composite key `f"{member_type}.{member_name}"` of line 111. -/
def smKey (r : SMRow) : String := r.MemberType ++ "." ++ r.MemberName

/-- The fold of the CSV-reading loop of lines 106-112 for one of its two
maps, given the key function of that map, starting from map `m`. -/
def groupFoldFrom (key : SMRow → String) (m : List (String × List String)) (rows : List SMRow) : List (String × List String) :=
  rows.foldl (fun m r => mapAdd m (key r) r.MemberName) m

/-- The CSV-reading loop of lines 106-112 for one of its two maps,
starting from the empty dict of lines 100-101. -/
def groupFold (key : SMRow → String) (rows : List SMRow) : List (String × List String) :=
  groupFoldFrom key [] rows

/-- `members_mapping` of `generate_package_xml`: composite key
`MemberType.MemberName` to the set of member names added under it.  The
source populates both maps in the same pass over the rows; two
single-map folds compute the same maps. -/
def members_mapping (rows : List SMRow) : List (String × List String) :=
  groupFold smKey rows

/-- `name_mapping` of `generate_package_xml`: `MemberType` to the set of
member names recorded for it. -/
def name_mapping (rows : List SMRow) : List (String × List String) :=
  groupFold (fun r => r.MemberType) rows

/-- The text of one `<members>` element (line 123):
`', '.join(members_mapping.get(f"{member_type}.{member_name}", []))`. -/
def memberValuesText (mm : List (String × List String)) (member_type member_name : String) : String :=
  pyJoin ", " ((dictGet mm (member_type ++ "." ++ member_name)).getD [])

/-- One `<members>` line of the manifest (lines 122-125). -/
def membersElement (mm : List (String × List String)) (member_type member_name : String) : String :=
  "    <members>" ++ memberValuesText mm member_type member_name ++ "</members>\n"

/-- One `<types>` block of the manifest (lines 119-128). -/
def typesBlock (mm : List (String × List String)) (member_type : String) (member_names : List String) : String :=
  "  <types>\n"
    ++ String.join (member_names.map (membersElement mm member_type))
    ++ "    <name>" ++ member_type ++ "</name>\n  </types>\n"

/-- The manifest envelope header of lines 115-118. -/
def xmlHeader (api_version : String) : String :=
  "<?xml version=\"1.0\" encoding=\"UTF-8\"?>\n<Package xmlns=\"http://soap.sforce.com/2006/04/metadata\">\n  <version>" ++ api_version ++ "</version>\n"

/-- `SalesforceQueryTool.generate_package_xml` (lines 93-130), from the
rows read out of the CSV to the text written to `pkg_xml`.  Python dict
iteration is insertion-ordered (guaranteed), so the `<types>` blocks come
in first-occurrence order.  CPython set iteration is hash-randomized;
this function fixes insertion order as one admissible iteration order
(adequate for every order-insensitive statement below), while
`generate_package_xml_ord` abstracts the set-iteration order for the
statements where the within-block order matters. -/
def generate_package_xml (api_version : String) (rows : List SMRow) : String :=
  xmlHeader api_version
    ++ String.join ((name_mapping rows).map (fun p => typesBlock (members_mapping rows) p.1 p.2))
    ++ "</Package>"

/-- Line 123 with the set-iteration order explicit: `order` enumerates
the set of values bound to the composite key. -/
def memberValuesText_ord (order : List String → List String)
    (mm : List (String × List String)) (member_type member_name : String) : String :=
  pyJoin ", " (order ((dictGet mm (member_type ++ "." ++ member_name)).getD []))

/-- One `<members>` line with the set-iteration order explicit. -/
def membersElement_ord (order : List String → List String)
    (mm : List (String × List String)) (member_type member_name : String) : String :=
  "    <members>" ++ memberValuesText_ord order mm member_type member_name ++ "</members>\n"

/-- One `<types>` block with the set-iteration order explicit; the
caller passes the already-enumerated `member_names`. -/
def typesBlock_ord (order : List String → List String)
    (mm : List (String × List String)) (member_type : String) (member_names : List String) : String :=
  "  <types>\n"
    ++ String.join (member_names.map (membersElement_ord order mm member_type))
    ++ "    <name>" ++ member_type ++ "</name>\n  </types>\n"

/-- `generate_package_xml` with the CPython set-iteration order as an
explicit parameter: wherever the source iterates a Python set — the
per-type `member_names` of line 122 and the joined set values of line
123 — the enumeration is `order`, which a faithful instantiation
constrains to be a permutation of each set.  Insertion order (`id`) is
one admissible instantiation. -/
def generate_package_xml_ord (order : List String → List String)
    (api_version : String) (rows : List SMRow) : String :=
  xmlHeader api_version
    ++ String.join ((name_mapping rows).map
        (fun p => typesBlock_ord order (members_mapping rows) p.1 (order p.2)))
    ++ "</Package>"

/-- `csv.DictWriter._dict_to_list`: a field outside the header's
fieldnames raises `ValueError` (`none`); a missing field writes the
default rest value, the empty cell. -/
def dictToRow (fieldnames : List String) (record : PyDict) : Option (List String) :=
  if record.all (fun kv => fieldnames.contains kv.1) then
    some (fieldnames.map (fun k => (dictGetStr record k).getD ""))
  else none

/-- The `writer.writerow` loop of lines 88-89: the rows written before
the first failing record, and whether all records were written. -/
def writeRows (fieldnames : List String) : List PyDict → List (List String) × Bool
  | [] => ([], true)
  | r :: rs =>
    match dictToRow fieldnames r with
    | none => ([], false)
    | some row =>
      let rest := writeRows fieldnames rs
      (row :: rest.1, rest.2)

/-- Result of `save_to_csv`: the no-records warning with no write, a fully
written file, or a `ValueError` escaping mid-write with the part already
written. -/
inductive CsvOutcome : Type
  | warned : CsvOutcome
  | wrote (table : List (List String)) : CsvOutcome
  | valueError (partialTable : List (List String)) : CsvOutcome
deriving DecidableEq

/-- `SalesforceQueryTool.save_to_csv` (lines 72-91): warn and skip the
write when `records` is empty, else write the header row from the first
record's keys and one row per record. -/
def save_to_csv (records : List PyDict) : CsvOutcome :=
  match records with
  | [] => .warned
  | first :: _ =>
    let fieldnames := first.map Prod.fst
    let written := writeRows fieldnames records
    if written.2 then .wrote (fieldnames :: written.1)
    else .valueError (fieldnames :: written.1)

/-- The HTTP response `requests.get` returns for the single query call:
status, raw body, and the `records` array of the JSON body (meaningful
on the 200 path). -/
structure ToolingResponse : Type where
  status : Nat
  body : String
  records : List PyDict

/-- The exception of line 68, carrying the status code and response
body of the failed call. -/
structure RemoteQueryError : Type where
  status : Nat
  body : String
deriving DecidableEq

/-- The message of the exception raised on line 68:
`f"Failed to run query: {response.status_code} {response.text}"`. -/
def remoteErrorMessage (e : RemoteQueryError) : String :=
  "Failed to run query: " ++ toString e.status ++ " " ++ e.body

/-- The request URL built on line 55 by f-string interpolation: the SOQL
query is inserted verbatim, with no URL encoding. -/
def query_url (instance_url api_version soql_query : String) : String :=
  instance_url ++ "/services/data/v" ++ api_version ++ "/tooling/query?q=" ++ soql_query

/-- `SalesforceQueryTool.run_tooling_query` (lines 47-70): one request;
a non-200 status raises (line 67-68), else the parsed JSON records are
returned. -/
def run_tooling_query (resp : ToolingResponse) : Except RemoteQueryError (List PyDict) :=
  if resp.status ≠ 200 then .error ⟨resp.status, resp.body⟩ else .ok resp.records

/-- Content of the two output paths (`output_csv`, `pkg_xml`) across one
button click: `none` is a missing file.  The CSV file is kept as its
table of rows, header first, which is what `csv.DictReader` recovers
from the written text. -/
structure FileState : Type where
  csv : Option (List (List String))
  pkg : Option String
deriving DecidableEq

/-- What one click of "Run Final Query and Generate Files" ends in: the
single generic error handler of lines 254-255 shows one of the raised
exceptions, or the run completes (`done`, recording whether the
no-records warning was shown). -/
inductive RunOutcome : Type
  | toolUninitialized : RunOutcome
  | queryBuildError : RunOutcome
  | remoteError (e : RemoteQueryError) : RunOutcome
  | csvWriteError : RunOutcome
  | csvFileMissing : RunOutcome
  | csvColumnMissing : RunOutcome
  | done (warned : Bool) : RunOutcome
deriving DecidableEq

/-- Turn one data row of the CSV table back into the `SMRow` the
aggregator loop reads; a missing `MemberName` or `MemberType` column is
a `KeyError` (lines 107-108). -/
def rowToSM (d : PyDict) : Option SMRow :=
  match dictGetStr d "MemberName", dictGetStr d "MemberType" with
  | some n, some t => some ⟨t, n⟩
  | _, _ => none

/-- All-or-nothing sequencing of the aggregator's row loop. -/
def optSeq : List (Option SMRow) → Option (List SMRow)
  | [] => some []
  | o :: os =>
    match o with
    | none => none
    | some r => (optSeq os).map (fun rs => r :: rs)

/-- `csv.DictReader` over the CSV table followed by the row loop of
`generate_package_xml`: the header row names the columns, each data row
is zipped against it. -/
def smRowsOf (table : List (List String)) : Option (List SMRow) :=
  match table with
  | [] => some []
  | header :: data => optSeq (data.map (fun r => rowToSM (header.zip r)))

/-- The `generate_package_xml` call of line 237 as a step on the file
state: reading a missing CSV raises `FileNotFoundError`, a missing
column raises `KeyError`, else the manifest file is written. -/
def pkgStep (api_version : String) (fs : FileState) (warned : Bool) : FileState × RunOutcome :=
  match fs.csv with
  | none => (fs, .csvFileMissing)
  | some table =>
    match smRowsOf table with
    | none => (fs, .csvColumnMissing)
    | some rows => ({ fs with pkg := some (generate_package_xml api_version rows) }, .done warned)

/-- The body of the "Run Final Query and Generate Files" handler of
`main` (lines 222-255), excluding display-only branches.  The tool
exists only when both text inputs are truthy (lines 178-183, 224, 252);
then the final SOQL is built, the one query runs against `resp`, the CSV
is saved, and `generate_package_xml` runs unconditionally afterwards —
also after the no-records warning. -/
def run_final_click (user_did_change api_version : String) (selected_member_types : List String)
    (resp : ToolingResponse) (fs : FileState) : FileState × RunOutcome :=
  if user_did_change = "" ∨ api_version = "" then (fs, .toolUninitialized)
  else
    match generate_soql (some user_did_change) selected_member_types with
    | none => (fs, .queryBuildError)
    | some _ =>
      match run_tooling_query resp with
      | .error e => (fs, .remoteError e)
      | .ok records =>
        match save_to_csv records with
        | .warned => pkgStep api_version fs true
        | .valueError partialTable => ({ fs with csv := some partialTable }, .csvWriteError)
        | .wrote table => pkgStep api_version { fs with csv := some table } false

/-- Modelled from the spec: the "URL-encoding" the spec ascribes to the
executor, i.e. percent-encoding as `urllib.parse.quote` with its default
safe set (letters, digits, `_.-~` and `/`), for ASCII text.  The source
performs no such encoding; this definition exists to compare the spec's
words against `query_url`. -/
def urlSafeChar (c : Char) : Bool :=
  c.isAlphanum || c = '_' || c = '.' || c = '-' || c = '~' || c = '/'

/-- Upper-case hex digit of a value below 16. -/
def hexDigit (n : Nat) : Char :=
  if n < 10 then Char.ofNat (48 + n) else Char.ofNat (55 + n)

/-- Modelled from the spec: `%XX` escape of one ASCII character. -/
def percentEncode (c : Char) : List Char :=
  ['%', hexDigit (c.toNat / 16 % 16), hexDigit (c.toNat % 16)]

/-- Modelled from the spec: URL-encode a query string. -/
def urlQuote (s : String) : String :=
  String.mk (s.data.foldr (fun c acc => if urlSafeChar c then c :: acc else percentEncode c ++ acc) [])

/-! ### Dictionary and set lemmas -/

theorem mem_setAdd {l : List String} {x y : String} :
    y ∈ setAdd l x ↔ y ∈ l ∨ y = x := by
  unfold setAdd
  by_cases h : x ∈ l
  · simp only [if_pos h]
    constructor
    · exact Or.inl
    · rintro (hy | rfl)
      · exact hy
      · exact h
  · simp [if_neg h, List.mem_append]

theorem nodup_setAdd {l : List String} {x : String} (h : l.Nodup) :
    (setAdd l x).Nodup := by
  unfold setAdd
  by_cases hx : x ∈ l
  · simpa [if_pos hx] using h
  · simpa [if_neg hx, List.nodup_append] using ⟨h, hx⟩

theorem dictGet_eq_none {m : List (String × List String)} {k : String} :
    dictGet m k = none ↔ k ∉ m.map Prod.fst := by
  induction m with
  | nil => simp [dictGet]
  | cons p m ih =>
    by_cases h : p.1 = k
    · simp [dictGet, h]
    · simp [dictGet, h, ih, List.mem_cons, Ne.symm h]

theorem dictGet_isSome {m : List (String × List String)} {k : String} :
    (dictGet m k).isSome ↔ k ∈ m.map Prod.fst := by
  rw [Option.isSome_iff_ne_none, Ne, dictGet_eq_none, not_not]

theorem dictGet_append_right {m m' : List (String × List String)} {k : String}
    (h : dictGet m k = none) : dictGet (m ++ m') k = dictGet m' k := by
  induction m with
  | nil => rfl
  | cons p m ih =>
    by_cases hp : p.1 = k
    · simp [dictGet, hp] at h
    · rw [List.cons_append]
      simp only [dictGet, if_neg hp] at h ⊢
      exact ih h

theorem dictGet_update_self {m : List (String × List String)} {k x : String} :
    dictGet (m.map (fun p => if p.1 = k then (p.1, setAdd p.2 x) else p)) k =
      (dictGet m k).map (fun l => setAdd l x) := by
  induction m with
  | nil => simp [dictGet]
  | cons p m ih =>
    by_cases hp : p.1 = k
    · simp [dictGet, hp]
    · simp [dictGet, hp, ih]

theorem dictGet_append_some {m m' : List (String × List String)} {k : String} {v : List String}
    (h : dictGet m k = some v) : dictGet (m ++ m') k = some v := by
  induction m with
  | nil => simp [dictGet] at h
  | cons p m ih =>
    by_cases hp : p.1 = k
    · simp only [dictGet, if_pos hp] at h ⊢
      exact h
    · simp only [dictGet, if_neg hp, List.cons_append] at h ⊢
      exact ih h

theorem dictGet_update_other {m : List (String × List String)} {k k' x : String}
    (h : k' ≠ k) :
    dictGet (m.map (fun p => if p.1 = k then (p.1, setAdd p.2 x) else p)) k' =
      dictGet m k' := by
  induction m with
  | nil => simp [dictGet]
  | cons p m ih =>
    by_cases hp : p.1 = k
    · simp [dictGet, hp, Ne.symm h, ih]
    · simp [dictGet, hp, ih]

theorem dictGet_mapAdd_self (m : List (String × List String)) (k x : String) :
    dictGet (mapAdd m k x) k = some (setAdd ((dictGet m k).getD []) x) := by
  unfold mapAdd
  by_cases hk : k ∈ m.map Prod.fst
  · rw [if_pos hk, dictGet_update_self]
    obtain ⟨vals, hv⟩ := Option.isSome_iff_exists.mp (dictGet_isSome.mpr hk)
    simp [hv]
  · rw [if_neg hk, dictGet_append_right (dictGet_eq_none.mpr hk)]
    simp [dictGet, dictGet_eq_none.mpr hk, setAdd]

theorem dictGet_mapAdd_other (m : List (String × List String)) (k x k' : String)
    (h : k' ≠ k) : dictGet (mapAdd m k x) k' = dictGet m k' := by
  unfold mapAdd
  by_cases hk : k ∈ m.map Prod.fst
  · rw [if_pos hk, dictGet_update_other h]
  · rw [if_neg hk]
    cases ho : dictGet m k' with
    | some v => exact dictGet_append_some ho
    | none =>
      rw [dictGet_append_right ho]
      simp [dictGet, Ne.symm h]

theorem keys_mapAdd (m : List (String × List String)) (k x : String) :
    (mapAdd m k x).map Prod.fst =
      if k ∈ m.map Prod.fst then m.map Prod.fst else m.map Prod.fst ++ [k] := by
  unfold mapAdd
  by_cases hk : k ∈ m.map Prod.fst
  · rw [if_pos hk, if_pos hk, List.map_map]
    apply List.map_congr_left
    intro p _
    by_cases hp : p.1 = k <;> simp [hp]
  · rw [if_neg hk, if_neg hk]
    simp

theorem keys_nodup_mapAdd {m : List (String × List String)} {k x : String}
    (h : (m.map Prod.fst).Nodup) : ((mapAdd m k x).map Prod.fst).Nodup := by
  rw [keys_mapAdd]
  by_cases hk : k ∈ m.map Prod.fst
  · rwa [if_pos hk]
  · rw [if_neg hk]
    exact ((List.perm_append_singleton k (m.map Prod.fst)).nodup_iff).mpr
      (List.nodup_cons.mpr ⟨hk, h⟩)

theorem mem_getD_iff {o : Option (List String)} {v : String} :
    v ∈ o.getD [] ↔ ∃ l, o = some l ∧ v ∈ l := by
  cases o <;> simp

/-- Invariant-style characterisation of the CSV-reading fold: keys stay
duplicate-free, every bound set stays duplicate-free, a key is absent
iff no processed row produced it, and a bound set holds exactly the
member names of the rows that produced its key (plus what the starting
map already held). -/
theorem groupFoldFrom_spec (key : SMRow → String) :
    ∀ (rows : List SMRow) (m : List (String × List String)),
      ((m.map Prod.fst).Nodup) →
      (∀ K vals, dictGet m K = some vals → vals.Nodup) →
      ((groupFoldFrom key m rows).map Prod.fst).Nodup
      ∧ (∀ K vals, dictGet (groupFoldFrom key m rows) K = some vals → vals.Nodup)
      ∧ (∀ K, dictGet (groupFoldFrom key m rows) K = none ↔
          (dictGet m K = none ∧ ∀ r ∈ rows, key r ≠ K))
      ∧ (∀ K vals v, dictGet (groupFoldFrom key m rows) K = some vals →
          (v ∈ vals ↔ (∃ vals0, dictGet m K = some vals0 ∧ v ∈ vals0)
            ∨ ∃ r ∈ rows, key r = K ∧ r.MemberName = v)) := by
  intro rows
  induction rows with
  | nil =>
    intro m h1 h2
    refine ⟨h1, h2, ?_, ?_⟩
    · intro K
      simp [groupFoldFrom]
    · intro K vals v hv
      simp only [groupFoldFrom, List.foldl_nil] at hv
      constructor
      · intro hmem
        exact Or.inl ⟨vals, hv, hmem⟩
      · rintro (⟨vals0, h0, hm⟩ | ⟨r, hr, _⟩)
        · rw [hv] at h0
          cases h0
          exact hm
        · exact absurd hr (List.not_mem_nil r)
  | cons r rows ih =>
    intro m h1 h2
    have step : groupFoldFrom key m (r :: rows) =
        groupFoldFrom key (mapAdd m (key r) r.MemberName) rows := rfl
    have h1' : ((mapAdd m (key r) r.MemberName).map Prod.fst).Nodup := keys_nodup_mapAdd h1
    have h2' : ∀ K vals, dictGet (mapAdd m (key r) r.MemberName) K = some vals → vals.Nodup := by
      intro K vals hv
      by_cases hK : K = key r
      · subst hK
        rw [dictGet_mapAdd_self] at hv
        cases hv
        apply nodup_setAdd
        cases hg : dictGet m (key r) with
        | none => simp
        | some l => simpa using h2 (key r) l hg
      · rw [dictGet_mapAdd_other m (key r) r.MemberName K hK] at hv
        exact h2 K vals hv
    obtain ⟨g1, g2, g3, g4⟩ := ih (mapAdd m (key r) r.MemberName) h1' h2'
    rw [step]
    refine ⟨g1, g2, ?_, ?_⟩
    · intro K
      rw [g3 K]
      constructor
      · rintro ⟨hnone, hall⟩
        by_cases hK : K = key r
        · subst hK
          rw [dictGet_mapAdd_self] at hnone
          cases hnone
        · rw [dictGet_mapAdd_other m (key r) r.MemberName K hK] at hnone
          refine ⟨hnone, ?_⟩
          intro r' hr'
          rcases List.mem_cons.mp hr' with h | h
          · subst h
            exact fun he => hK he.symm
          · exact hall r' h
      · rintro ⟨hnone, hall⟩
        have hKr : key r ≠ K := hall r (List.mem_cons_self r rows)
        refine ⟨?_, fun r' hr' => hall r' (List.mem_cons_of_mem r hr')⟩
        rw [dictGet_mapAdd_other m (key r) r.MemberName K (fun he => hKr he.symm)]
        exact hnone
    · intro K vals v hv
      rw [g4 K vals v hv]
      by_cases hK : K = key r
      · subst hK
        rw [dictGet_mapAdd_self]
        constructor
        · rintro (⟨vals0, h0, hm⟩ | ⟨r', hr', hk', hn'⟩)
          · cases h0
            rcases mem_setAdd.mp hm with hold | rfl
            · rcases mem_getD_iff.mp hold with ⟨l, hl, hvl⟩
              exact Or.inl ⟨l, hl, hvl⟩
            · exact Or.inr ⟨r, List.mem_cons_self r rows, rfl, rfl⟩
          · exact Or.inr ⟨r', List.mem_cons_of_mem r hr', hk', hn'⟩
        · rintro (⟨vals0, h0, hm⟩ | ⟨r', hr', hk', hn'⟩)
          · refine Or.inl ⟨_, rfl, ?_⟩
            exact mem_setAdd.mpr (Or.inl (mem_getD_iff.mpr ⟨vals0, h0, hm⟩))
          · rcases List.mem_cons.mp hr' with h | h
            · subst h
              subst hn'
              exact Or.inl ⟨_, rfl, mem_setAdd.mpr (Or.inr rfl)⟩
            · exact Or.inr ⟨r', h, hk', hn'⟩
      · rw [dictGet_mapAdd_other m (key r) r.MemberName K hK]
        constructor
        · rintro (h | ⟨r', hr', hk', hn'⟩)
          · exact Or.inl h
          · exact Or.inr ⟨r', List.mem_cons_of_mem r hr', hk', hn'⟩
        · rintro (h | ⟨r', hr', hk', hn'⟩)
          · exact Or.inl h
          · rcases List.mem_cons.mp hr' with h' | h'
            · subst h'
              exact absurd hk'.symm hK
            · exact Or.inr ⟨r', h', hk', hn'⟩

theorem groupFold_keys_nodup (key : SMRow → String) (rows : List SMRow) :
    ((groupFold key rows).map Prod.fst).Nodup :=
  (groupFoldFrom_spec key rows [] (by simp) (by intro K vals h; cases h)).1

theorem groupFold_vals_nodup (key : SMRow → String) (rows : List SMRow) {K : String}
    {vals : List String} (h : dictGet (groupFold key rows) K = some vals) : vals.Nodup :=
  (groupFoldFrom_spec key rows [] (by simp) (by intro K vals h; cases h)).2.1 K vals h

theorem groupFold_eq_none (key : SMRow → String) (rows : List SMRow) (K : String) :
    dictGet (groupFold key rows) K = none ↔ ∀ r ∈ rows, key r ≠ K := by
  have h := (groupFoldFrom_spec key rows [] (by simp) (by intro K vals h; cases h)).2.2.1 K
  simpa [dictGet] using h

theorem groupFold_mem (key : SMRow → String) (rows : List SMRow) {K : String}
    {vals : List String} (h : dictGet (groupFold key rows) K = some vals) (v : String) :
    v ∈ vals ↔ ∃ r ∈ rows, key r = K ∧ r.MemberName = v := by
  have hg := (groupFoldFrom_spec key rows [] (by simp) (by intro K vals h; cases h)).2.2.2 K vals v h
  rw [hg]
  constructor
  · rintro (⟨vals0, h0, _⟩ | h')
    · cases h0
    · exact h'
  · exact Or.inr

theorem groupFold_isSome (key : SMRow → String) (rows : List SMRow) (K : String) :
    (dictGet (groupFold key rows) K).isSome ↔ ∃ r ∈ rows, key r = K := by
  rw [Option.isSome_iff_ne_none, Ne, groupFold_eq_none]
  push_neg
  constructor
  · rintro ⟨r, hr, he⟩
    exact ⟨r, hr, he⟩
  · rintro ⟨r, hr, he⟩
    exact ⟨r, hr, he⟩

/-! ### Format-automaton lemmas -/

theorem pyFormatGo_copy_cons (f : List (String × String)) {c : Char} (t : List Char)
    (h1 : c ≠ lbrace) (h2 : c ≠ rbrace) :
    pyFormatGo f .copy (c :: t) = (pyFormatGo f .copy t).map (fun r => c :: r) := by
  simp [pyFormatGo, h1, h2]

theorem pyFormatGo_copy_braceFree (f : List (String × String)) :
    ∀ {l : List Char}, (∀ c ∈ l, c ≠ lbrace ∧ c ≠ rbrace) →
      pyFormatGo f .copy l = some l := by
  intro l
  induction l with
  | nil => intro _; rfl
  | cons c t ih =>
    intro h
    rw [pyFormatGo_copy_cons f t (h c (List.mem_cons_self c t)).1 (h c (List.mem_cons_self c t)).2,
      ih (fun c' hc' => h c' (List.mem_cons_of_mem c hc'))]
    rfl

theorem pyFormatGo_field (f : List (String × String)) (S : List Char) :
    ∀ (nm acc : List Char), (∀ c ∈ nm, c ≠ rbrace) →
      pyFormatGo f (.field acc) (nm ++ rbrace :: S) =
        match f.lookup (String.mk (acc ++ nm)) with
        | none => none
        | some v => (pyFormatGo f .copy S).map (fun t => v.data ++ t) := by
  intro nm
  induction nm with
  | nil =>
    intro acc _
    simp [pyFormatGo]
  | cons c nm ih =>
    intro acc h
    have hc : c ≠ rbrace := h c (List.mem_cons_self c nm)
    rw [List.cons_append]
    show pyFormatGo f (.field acc) (c :: (nm ++ rbrace :: S)) = _
    rw [show pyFormatGo f (.field acc) (c :: (nm ++ rbrace :: S)) =
        pyFormatGo f (.field (acc ++ [c])) (nm ++ rbrace :: S) by simp [pyFormatGo, hc]]
    rw [ih (acc ++ [c]) (fun c' hc' => h c' (List.mem_cons_of_mem c hc'))]
    simp

theorem pyFormatGo_format (f : List (String × String)) (P name S : List Char) (v : String)
    (hP : ∀ c ∈ P, c ≠ lbrace ∧ c ≠ rbrace)
    (hname : ∀ c ∈ name, c ≠ lbrace ∧ c ≠ rbrace)
    (hne : name ≠ [])
    (hv : f.lookup (String.mk name) = some v)
    (hS : ∀ c ∈ S, c ≠ lbrace ∧ c ≠ rbrace) :
    pyFormatGo f .copy (P ++ lbrace :: name ++ rbrace :: S) = some (P ++ v.data ++ S) := by
  induction P with
  | nil =>
    cases name with
    | nil => exact absurd rfl hne
    | cons c0 nm =>
      have hc0 : c0 ≠ lbrace ∧ c0 ≠ rbrace := hname c0 (List.mem_cons_self c0 nm)
      rw [List.nil_append]
      show pyFormatGo f .copy (lbrace :: ((c0 :: nm) ++ rbrace :: S)) = _
      rw [show pyFormatGo f .copy (lbrace :: ((c0 :: nm) ++ rbrace :: S)) =
          pyFormatGo f .sawOpen ((c0 :: nm) ++ rbrace :: S) by simp [pyFormatGo]]
      rw [List.cons_append]
      rw [show pyFormatGo f .sawOpen (c0 :: (nm ++ rbrace :: S)) =
          pyFormatGo f (.field [c0]) (nm ++ rbrace :: S) by simp [pyFormatGo, hc0.1, hc0.2]]
      rw [pyFormatGo_field f S nm [c0]
        (fun c' hc' => (hname c' (List.mem_cons_of_mem c0 hc')).2)]
      rw [show ([c0] ++ nm) = c0 :: nm from rfl, hv]
      rw [pyFormatGo_copy_braceFree f hS]
      rfl
  | cons c P ih =>
    have hc : c ≠ lbrace ∧ c ≠ rbrace := hP c (List.mem_cons_self c P)
    have ih' := ih (fun c' hc' => hP c' (List.mem_cons_of_mem c hc'))
    simp only [List.cons_append, List.append_assoc] at ih' ⊢
    rw [pyFormatGo_copy_cons f _ hc.1 hc.2, ih']
    rfl

/-- A string free of format braces, which `str.format` copies verbatim. -/
def BraceFree (s : String) : Prop := ∀ c ∈ s.data, c ≠ lbrace ∧ c ≠ rbrace

instance (s : String) : Decidable (BraceFree s) := by
  unfold BraceFree
  infer_instance

/-- Everything of the SOQL template before the replacement field. -/
def soqlSelectPart : String :=
  "SELECT Id, LastModifiedBy.Name, MemberIdOrName, MemberType, MemberName, RevisionNum, RevisionCounter, IsNameObsolete, LastModifiedById, IsNewMember, ChangedBy FROM SourceMember WHERE LastModifiedBy.Name = '"

/-- The base query after formatting, with the user name substituted. -/
def soqlFormattedBase (u : String) : String := soqlSelectPart ++ u ++ "'"

/-- The filter clause appended on line 43:
`f" AND MemberType IN ('{member_types_list}')"`. -/
def soqlInClause (member_types : List String) : String :=
  " AND MemberType IN ('" ++ pyJoin "', '" member_types ++ "')"

theorem soqlTemplate_decomp :
    soqlTemplate.data =
      soqlSelectPart.data ++ lbrace :: "user_did_change".data ++ rbrace :: ['\''] := by
  decide

theorem braceFree_append {s t : String} (hs : BraceFree s) (ht : BraceFree t) :
    BraceFree (s ++ t) := by
  intro c hc
  rw [String.data_append] at hc
  rcases List.mem_append.mp hc with h | h
  · exact hs c h
  · exact ht c h

theorem braceFree_pyJoin {sep : String} (hsep : BraceFree sep) :
    ∀ (l : List String), (∀ s ∈ l, BraceFree s) → BraceFree (pyJoin sep l) := by
  intro l
  induction l with
  | nil =>
    intro _ c hc
    exact absurd hc (List.not_mem_nil c)
  | cons s rest ih =>
    intro h
    have heq : pyJoin sep (s :: rest) =
        if rest.isEmpty then s else s ++ sep ++ pyJoin sep rest := rfl
    rw [heq]
    by_cases hre : rest.isEmpty
    · rw [if_pos hre]
      exact h s (List.mem_cons_self s rest)
    · rw [if_neg hre]
      exact braceFree_append
        (braceFree_append (h s (List.mem_cons_self s rest)) hsep)
        (ih (fun s' hs' => h s' (List.mem_cons_of_mem s hs')))

theorem braceFree_soqlInClause {ts : List String} (hts : ∀ t ∈ ts, BraceFree t) :
    BraceFree (soqlInClause ts) :=
  braceFree_append (braceFree_append (by decide) (braceFree_pyJoin (by decide) ts hts))
    (by decide)

/-- What `generate_soql` computes for a brace-free user name and
brace-free member types: the formatted base query, with the one `IN`
clause appended exactly when `member_types` is nonempty. -/
theorem generate_soql_eq (u : String) (ts : List String)
    (hts : ∀ t ∈ ts, BraceFree t) :
    generate_soql (some u) ts =
      some (soqlFormattedBase u ++ (if ts.isEmpty then "" else soqlInClause ts)) := by
  have hlookup :
      [("user_did_change", pyStr (some u))].lookup (String.mk "user_did_change".data) =
        some u := rfl
  have hname : ∀ c ∈ "user_did_change".data, c ≠ lbrace ∧ c ≠ rbrace := by decide
  have hne : "user_did_change".data ≠ [] := by decide
  have hP : ∀ c ∈ soqlSelectPart.data, c ≠ lbrace ∧ c ≠ rbrace := by decide
  cases ts with
  | nil =>
    show pyFormat [("user_did_change", pyStr (some u))] soqlTemplate = _
    unfold pyFormat
    rw [show soqlTemplate.data =
        soqlSelectPart.data ++ lbrace :: "user_did_change".data ++ rbrace :: ['\'']
      from soqlTemplate_decomp]
    rw [pyFormatGo_format _ _ _ _ u hP hname hne hlookup (by decide)]
    rw [Option.map_some']
    congr 1
    apply String.ext
    show soqlSelectPart.data ++ u.data ++ ['\''] = (soqlFormattedBase u ++ "").data
    simp [soqlFormattedBase, String.data_append]
  | cons t ts' =>
    show pyFormat [("user_did_change", pyStr (some u))]
        (soqlTemplate ++ " AND MemberType IN ('" ++ pyJoin "', '" (t :: ts') ++ "')") = _
    unfold pyFormat
    have hclause : BraceFree (soqlInClause (t :: ts')) := braceFree_soqlInClause hts
    have hS : ∀ c ∈ '\'' :: (soqlInClause (t :: ts')).data, c ≠ lbrace ∧ c ≠ rbrace := by
      intro c hc
      rcases List.mem_cons.mp hc with rfl | hc'
      · exact (by decide)
      · exact hclause c hc'
    have hdata :
        (soqlTemplate ++ " AND MemberType IN ('" ++ pyJoin "', '" (t :: ts') ++ "')").data =
          soqlSelectPart.data ++ lbrace :: "user_did_change".data ++
            rbrace :: ('\'' :: (soqlInClause (t :: ts')).data) := by
      have : (soqlTemplate ++ " AND MemberType IN ('" ++ pyJoin "', '" (t :: ts') ++ "')") =
          soqlTemplate ++ soqlInClause (t :: ts') := by
        simp [soqlInClause, String.append_assoc]
      rw [this, String.data_append, soqlTemplate_decomp]
      simp [List.append_assoc]
    rw [hdata, pyFormatGo_format _ _ _ _ u hP hname hne hlookup hS]
    rw [Option.map_some']
    congr 1
    apply String.ext
    show soqlSelectPart.data ++ u.data ++ ('\'' :: (soqlInClause (t :: ts')).data) =
      (soqlFormattedBase u ++ if (t :: ts').isEmpty then "" else soqlInClause (t :: ts')).data
    simp [soqlFormattedBase, String.data_append]

/-! ### Remaining helper lemmas -/

theorem not_infix_of_not_mem {needle hay : List Char} {c : Char}
    (hc : c ∈ needle) (hh : c ∉ hay) : ¬ needle <:+: hay :=
  fun h => hh (h.sublist.subset hc)

theorem eq_singleton_of_nodup {l : List String} {x : String} (hn : l.Nodup)
    (hx : x ∈ l) (hall : ∀ y ∈ l, y = x) : l = [x] := by
  cases l with
  | nil => exact absurd hx (List.not_mem_nil x)
  | cons a t =>
    have ha : a = x := hall a (List.mem_cons_self a t)
    subst ha
    have ht : t = [] := by
      cases t with
      | nil => rfl
      | cons b t' =>
        have hb : b = a := hall b (List.mem_cons_of_mem a (List.mem_cons_self b t'))
        have hnb : a ∉ b :: t' := (List.nodup_cons.mp hn).1
        exact absurd (hb ▸ List.mem_cons_self b t') hnb
    rw [ht]

theorem dictToRow_of_subset {fieldnames : List String} {record : PyDict}
    (h : ∀ kv ∈ record, kv.1 ∈ fieldnames) :
    dictToRow fieldnames record =
      some (fieldnames.map (fun k => (dictGetStr record k).getD "")) := by
  have hall : record.all (fun kv => fieldnames.contains kv.1) = true := by
    rw [List.all_eq_true]
    intro kv hkv
    simp [h kv hkv]
  unfold dictToRow
  rw [if_pos hall]

theorem writeRows_complete (fieldnames : List String) :
    ∀ (rs : List PyDict), (∀ r ∈ rs, ∀ kv ∈ r, kv.1 ∈ fieldnames) →
      writeRows fieldnames rs =
        (rs.map (fun r => fieldnames.map (fun k => (dictGetStr r k).getD "")), true) := by
  intro rs
  induction rs with
  | nil => intro _; rfl
  | cons r rs ih =>
    intro h
    have hr := dictToRow_of_subset (h r (List.mem_cons_self r rs))
    have hrs := ih (fun r' h' kv hkv => h r' (List.mem_cons_of_mem r h') kv hkv)
    simp [writeRows, hr, hrs]

theorem urlQuoteList_of_safe :
    ∀ (l : List Char), (∀ c ∈ l, urlSafeChar c = true) →
      l.foldr (fun c acc => if urlSafeChar c then c :: acc else percentEncode c ++ acc) [] = l := by
  intro l
  induction l with
  | nil => intro _; rfl
  | cons c t ih =>
    intro h
    simp only [List.foldr_cons]
    rw [if_pos (h c (List.mem_cons_self c t)), ih (fun c' h' => h c' (List.mem_cons_of_mem c h'))]

theorem pkgStep_csv (apiv : String) (fs : FileState) (warned : Bool) :
    (pkgStep apiv fs warned).1.csv = fs.csv := by
  obtain ⟨csv, pkg⟩ := fs
  cases csv with
  | none => rfl
  | some table =>
    show (match smRowsOf table with
      | none => ((⟨some table, pkg⟩ : FileState), RunOutcome.csvColumnMissing)
      | some rows =>
          ({ (⟨some table, pkg⟩ : FileState) with
              pkg := some (generate_package_xml apiv rows) }, RunOutcome.done warned)).1.csv =
      some table
    cases smRowsOf table with
    | none => rfl
    | some rows => rfl

theorem pkgStep_missing (apiv : String) (fs : FileState) (warned : Bool)
    (h : fs.csv = none) : pkgStep apiv fs warned = (fs, RunOutcome.csvFileMissing) := by
  unfold pkgStep
  rw [h]

theorem pkgStep_writes (apiv : String) (csv0 : Option (List (List String)))
    (pkg0 : Option String) (warned : Bool)
    (table : List (List String)) (rows : List SMRow)
    (h1 : csv0 = some table) (h2 : smRowsOf table = some rows) :
    pkgStep apiv ⟨csv0, pkg0⟩ warned =
      (⟨csv0, some (generate_package_xml apiv rows)⟩, RunOutcome.done warned) := by
  subst h1
  show (match smRowsOf table with
    | none => ((⟨some table, pkg0⟩ : FileState), RunOutcome.csvColumnMissing)
    | some rows =>
        ((⟨some table, some (generate_package_xml apiv rows)⟩ : FileState),
          RunOutcome.done warned)) = _
  rw [h2]

/-- Insertion order instantiates the order-parametric aggregator to the
fixed-order one: `generate_package_xml` is `generate_package_xml_ord id`. -/
theorem generate_package_xml_ord_id (api_version : String) (rows : List SMRow) :
    generate_package_xml_ord id api_version rows = generate_package_xml api_version rows :=
  rfl

/-! ### Claims -/

/-- C1: for every record sequence, the manifest of `generate_package_xml`
is the envelope around one `<types>` block per entry of `name_mapping`;
the entry keys are duplicate-free and are exactly the member types
occurring in the records, and the member-name set of each type is
duplicate-free and holds exactly the member names recorded for that
type — so there is exactly one `<types>` block per distinct MemberType,
exactly one `<members>` element per distinct MemberName recorded for it,
duplicate (MemberType, MemberName) pairs collapse, and every member name
appears under exactly its own type's block. -/
theorem c1_manifest_grouping (api_version : String) (rows : List SMRow) :
    generate_package_xml api_version rows =
      xmlHeader api_version
        ++ String.join ((name_mapping rows).map (fun p => typesBlock (members_mapping rows) p.1 p.2))
        ++ "</Package>"
    ∧ ((name_mapping rows).map Prod.fst).Nodup
    ∧ (∀ T, (dictGet (name_mapping rows) T).isSome ↔ ∃ r ∈ rows, r.MemberType = T)
    ∧ (∀ T ns, dictGet (name_mapping rows) T = some ns →
        ns.Nodup ∧ ∀ M, M ∈ ns ↔ ∃ r ∈ rows, r.MemberType = T ∧ r.MemberName = M) := by
  refine ⟨rfl, groupFold_keys_nodup _ rows, fun T => groupFold_isSome _ rows T, ?_⟩
  intro T ns h
  exact ⟨groupFold_vals_nodup _ rows h, fun M => groupFold_mem _ rows h M⟩

/-- C7 is false as stated: line 122 iterates a Python set, whose
CPython iteration order is hash-randomized, so the program does not
guarantee Foo before Bar inside the ApexClass block.  Reversal is an
admissible iteration order of the two-element set (a permutation of
it), and under it the aggregator emits Bar before Foo — a manifest
different from the exact string the claim fixes. -/
theorem c7_order_not_guaranteed :
    List.Perm (List.reverse ["Foo", "Bar"]) ["Foo", "Bar"]
    ∧ generate_package_xml_ord List.reverse "60.0"
        [⟨"ApexClass", "Foo"⟩, ⟨"ApexClass", "Bar"⟩, ⟨"CustomObject", "Account__c"⟩] =
      "<?xml version=\"1.0\" encoding=\"UTF-8\"?>\n<Package xmlns=\"http://soap.sforce.com/2006/04/metadata\">\n  <version>60.0</version>\n  <types>\n    <members>Bar</members>\n    <members>Foo</members>\n    <name>ApexClass</name>\n  </types>\n  <types>\n    <members>Account__c</members>\n    <name>CustomObject</name>\n  </types>\n</Package>"
    ∧ ("<?xml version=\"1.0\" encoding=\"UTF-8\"?>\n<Package xmlns=\"http://soap.sforce.com/2006/04/metadata\">\n  <version>60.0</version>\n  <types>\n    <members>Bar</members>\n    <members>Foo</members>\n    <name>ApexClass</name>\n  </types>\n  <types>\n    <members>Account__c</members>\n    <name>CustomObject</name>\n  </types>\n</Package>" : String) ≠
      "<?xml version=\"1.0\" encoding=\"UTF-8\"?>\n<Package xmlns=\"http://soap.sforce.com/2006/04/metadata\">\n  <version>60.0</version>\n  <types>\n    <members>Foo</members>\n    <members>Bar</members>\n    <name>ApexClass</name>\n  </types>\n  <types>\n    <members>Account__c</members>\n    <name>CustomObject</name>\n  </types>\n</Package>"
    ∧ generate_package_xml_ord id "60.0"
        [⟨"ApexClass", "Foo"⟩, ⟨"ApexClass", "Bar"⟩, ⟨"CustomObject", "Account__c"⟩] =
      "<?xml version=\"1.0\" encoding=\"UTF-8\"?>\n<Package xmlns=\"http://soap.sforce.com/2006/04/metadata\">\n  <version>60.0</version>\n  <types>\n    <members>Foo</members>\n    <members>Bar</members>\n    <name>ApexClass</name>\n  </types>\n  <types>\n    <members>Account__c</members>\n    <name>CustomObject</name>\n  </types>\n</Package>" :=
  ⟨by decide, rfl, by decide, rfl⟩

/-- C7 (amended): for the three scenario records, under every admissible
set-iteration order (any enumeration that is a permutation of each set),
the aggregator produces a manifest with exactly two `<types>` blocks in
first-occurrence order: an ApexClass block whose `<members>` lines list
Foo and Bar in the set's iteration order — some permutation of the
claimed order — followed by a CustomObject block containing exactly
`<members>Account__c</members>`.  The block order and the block contents
are guaranteed; the within-block member order is not. -/
theorem c7_scenario_up_to_set_order (order : List String → List String)
    (horder : ∀ l : List String, List.Perm (order l) l) :
    List.Perm (order ["Foo", "Bar"]) ["Foo", "Bar"]
    ∧ generate_package_xml_ord order "60.0"
        [⟨"ApexClass", "Foo"⟩, ⟨"ApexClass", "Bar"⟩, ⟨"CustomObject", "Account__c"⟩] =
      xmlHeader "60.0"
        ++ String.join
          ["  <types>\n"
              ++ String.join ((order ["Foo", "Bar"]).map
                  (fun n => "    <members>" ++ n ++ "</members>\n"))
              ++ "    <name>" ++ "ApexClass" ++ "</name>\n  </types>\n",
            "  <types>\n    <members>Account__c</members>\n    <name>CustomObject</name>\n  </types>\n"]
        ++ "</Package>" := by
  have hFoo : order ["Foo"] = ["Foo"] := List.perm_singleton.mp (horder ["Foo"])
  have hBar : order ["Bar"] = ["Bar"] := List.perm_singleton.mp (horder ["Bar"])
  have hAcc : order ["Account__c"] = ["Account__c"] :=
    List.perm_singleton.mp (horder ["Account__c"])
  refine ⟨horder _, ?_⟩
  have hmm1 : ∀ n ∈ order ["Foo", "Bar"],
      membersElement_ord order
          (members_mapping
            [⟨"ApexClass", "Foo"⟩, ⟨"ApexClass", "Bar"⟩, ⟨"CustomObject", "Account__c"⟩])
          "ApexClass" n =
        "    <members>" ++ n ++ "</members>\n" := by
    intro n hn
    have hnFB : n ∈ ["Foo", "Bar"] := (horder ["Foo", "Bar"]).subset hn
    rcases List.mem_cons.mp hnFB with rfl | hnB
    · show "    <members>" ++ pyJoin ", " (order ["Foo"]) ++ "</members>\n" = _
      rw [hFoo]
      rfl
    · rcases List.mem_cons.mp hnB with rfl | hnil
      · show "    <members>" ++ pyJoin ", " (order ["Bar"]) ++ "</members>\n" = _
        rw [hBar]
        rfl
      · exact absurd hnil (List.not_mem_nil n)
  have hblockA : typesBlock_ord order
      (members_mapping
        [⟨"ApexClass", "Foo"⟩, ⟨"ApexClass", "Bar"⟩, ⟨"CustomObject", "Account__c"⟩])
      "ApexClass" (order ["Foo", "Bar"]) =
      "  <types>\n"
        ++ String.join ((order ["Foo", "Bar"]).map
            (fun n => "    <members>" ++ n ++ "</members>\n"))
        ++ "    <name>" ++ "ApexClass" ++ "</name>\n  </types>\n" := by
    show "  <types>\n"
        ++ String.join ((order ["Foo", "Bar"]).map
            (membersElement_ord order
              (members_mapping
                [⟨"ApexClass", "Foo"⟩, ⟨"ApexClass", "Bar"⟩, ⟨"CustomObject", "Account__c"⟩])
              "ApexClass"))
        ++ "    <name>" ++ "ApexClass" ++ "</name>\n  </types>\n" = _
    rw [List.map_congr_left hmm1]
  have hblockC : typesBlock_ord order
      (members_mapping
        [⟨"ApexClass", "Foo"⟩, ⟨"ApexClass", "Bar"⟩, ⟨"CustomObject", "Account__c"⟩])
      "CustomObject" (order ["Account__c"]) =
      "  <types>\n    <members>Account__c</members>\n    <name>CustomObject</name>\n  </types>\n" := by
    rw [hAcc]
    show "  <types>\n"
        ++ String.join ["    <members>" ++ pyJoin ", " (order ["Account__c"]) ++ "</members>\n"]
        ++ "    <name>" ++ "CustomObject" ++ "</name>\n  </types>\n" = _
    rw [hAcc]
    rfl
  have hgen : generate_package_xml_ord order "60.0"
      [⟨"ApexClass", "Foo"⟩, ⟨"ApexClass", "Bar"⟩, ⟨"CustomObject", "Account__c"⟩] =
      xmlHeader "60.0"
        ++ String.join
          [typesBlock_ord order
            (members_mapping
              [⟨"ApexClass", "Foo"⟩, ⟨"ApexClass", "Bar"⟩, ⟨"CustomObject", "Account__c"⟩])
            "ApexClass" (order ["Foo", "Bar"]),
          typesBlock_ord order
            (members_mapping
              [⟨"ApexClass", "Foo"⟩, ⟨"ApexClass", "Bar"⟩, ⟨"CustomObject", "Account__c"⟩])
            "CustomObject" (order ["Account__c"])]
        ++ "</Package>" := rfl
  rw [hgen, hblockA, hblockC]

/-- C7 witness: insertion order (`id`) is one admissible set-iteration
order; under it the amended claim instantiates to the Foo-then-Bar block
of the spec's scenario. -/
theorem c7_scenario_up_to_set_order_witness :
    List.Perm (id ["Foo", "Bar"]) ["Foo", "Bar"]
    ∧ generate_package_xml_ord id "60.0"
        [⟨"ApexClass", "Foo"⟩, ⟨"ApexClass", "Bar"⟩, ⟨"CustomObject", "Account__c"⟩] =
      xmlHeader "60.0"
        ++ String.join
          ["  <types>\n"
              ++ String.join ((id ["Foo", "Bar"]).map
                  (fun n => "    <members>" ++ n ++ "</members>\n"))
              ++ "    <name>" ++ "ApexClass" ++ "</name>\n  </types>\n",
            "  <types>\n    <members>Account__c</members>\n    <name>CustomObject</name>\n  </types>\n"]
        ++ "</Package>" :=
  c7_scenario_up_to_set_order id (fun l => List.Perm.refl l)

/-- C6 is false as stated: with dotted names the composite keys of two
distinct (MemberType, MemberName) pairs collide — records
("A.B", "C") and ("A", "B.C") both give key "A.B.C" — and the
`<members>` text emitted for type "A.B", member "C" is "C, B.C",
not the single member name. -/
theorem c6_composite_key_collision :
    dictGet (name_mapping [⟨"A.B", "C"⟩, ⟨"A", "B.C"⟩]) "A.B" = some ["C"]
    ∧ memberValuesText (members_mapping [⟨"A.B", "C"⟩, ⟨"A", "B.C"⟩]) "A.B" "C" = "C, B.C"
    ∧ ("C, B.C" : String) ≠ "C" :=
  ⟨rfl, rfl, by decide⟩

/-- C6 (amended): whenever the composite keys of the records do not
collide — in particular whenever member types contain no dot — the set
looked up under `<MemberType>.<MemberName>` is the singleton of that
member name, and the `<members>` element text equals the member name. -/
theorem c6_members_text_singleton (rows : List SMRow)
    (hinj : ∀ r1 ∈ rows, ∀ r2 ∈ rows, smKey r1 = smKey r2 → r1 = r2)
    (T M : String) (ns : List String)
    (h1 : dictGet (name_mapping rows) T = some ns) (h2 : M ∈ ns) :
    dictGet (members_mapping rows) (T ++ "." ++ M) = some [M]
    ∧ memberValuesText (members_mapping rows) T M = M := by
  have h1' : dictGet (groupFold (fun r => r.MemberType) rows) T = some ns := h1
  obtain ⟨r0, hr0, hT, hM⟩ := (groupFold_mem _ rows h1' M).mp h2
  have hkey : smKey r0 = T ++ "." ++ M := by
    simp only [smKey]
    rw [hT, hM]
  have hsome : (dictGet (groupFold smKey rows) (T ++ "." ++ M)).isSome :=
    (groupFold_isSome smKey rows (T ++ "." ++ M)).mpr ⟨r0, hr0, hkey⟩
  obtain ⟨vals, hvals⟩ := Option.isSome_iff_exists.mp hsome
  have hmem := fun v => groupFold_mem smKey rows hvals v
  have hMv : M ∈ vals := (hmem M).mpr ⟨r0, hr0, hkey, hM⟩
  have hallM : ∀ v ∈ vals, v = M := by
    intro v hv
    obtain ⟨r, hr, hk, hn⟩ := (hmem v).mp hv
    have heq : r = r0 := hinj r hr r0 hr0 (hk.trans hkey.symm)
    rw [← hn, heq, hM]
  have hsingle : vals = [M] :=
    eq_singleton_of_nodup (groupFold_vals_nodup smKey rows hvals) hMv hallM
  rw [hsingle] at hvals
  have hvals' : dictGet (members_mapping rows) (T ++ "." ++ M) = some [M] := hvals
  refine ⟨hvals', ?_⟩
  rw [memberValuesText, hvals']
  rfl

/-- C6 witness: at the concrete three-record scenario the amended claim
holds, with the ApexClass/Foo element text computing to "Foo". -/
theorem c6_members_text_singleton_witness :
    dictGet (members_mapping [⟨"ApexClass", "Foo"⟩, ⟨"ApexClass", "Bar"⟩, ⟨"CustomObject", "Account__c"⟩])
        ("ApexClass" ++ "." ++ "Foo") = some ["Foo"]
    ∧ memberValuesText (members_mapping [⟨"ApexClass", "Foo"⟩, ⟨"ApexClass", "Bar"⟩, ⟨"CustomObject", "Account__c"⟩])
        "ApexClass" "Foo" = "Foo" :=
  c6_members_text_singleton
    [⟨"ApexClass", "Foo"⟩, ⟨"ApexClass", "Bar"⟩, ⟨"CustomObject", "Account__c"⟩]
    (by decide) "ApexClass" "Foo" ["Foo", "Bar"] (by rfl) (by decide)

/-- C2 is false as stated: for the nonempty member-type list containing
the single open-brace string, `generate_soql` raises (the final
`str.format` hits an unmatched brace) and returns no query at all. -/
theorem c2_brace_type_raises :
    generate_soql (some "Alice") [String.mk [lbrace]] = none := by
  rfl

/-- C2 (amended): for brace-free member types the built query is the
formatted base followed — exactly when `member_types` is nonempty — by
the one appended clause ` AND MemberType IN ('…')` whose list joins the
supplied types quoted and comma-separated in input order; the formatted
base contains no `(` at all when the user name has none, hence no ` IN (`
occurrence outside the appended clause, and for empty `member_types` the
query is the bare base with no ` IN (` occurrence. -/
theorem c2_in_clause (u : String) (ts : List String)
    (hts : ∀ t ∈ ts, BraceFree t) (hu : '(' ∉ u.data) :
    generate_soql (some u) ts =
      some (soqlFormattedBase u ++ (if ts.isEmpty then "" else soqlInClause ts))
    ∧ soqlInClause ts = " AND MemberType IN ('" ++ pyJoin "', '" ts ++ "')"
    ∧ ¬ (" IN (".data <:+: (soqlFormattedBase u).data)
    ∧ (ts.isEmpty →
        soqlFormattedBase u ++ (if ts.isEmpty then "" else soqlInClause ts) =
          soqlFormattedBase u) := by
  refine ⟨generate_soql_eq u ts hts, rfl, ?_, ?_⟩
  · apply not_infix_of_not_mem (c := '(')
    · decide
    · intro hc
      rw [show soqlFormattedBase u = soqlSelectPart ++ u ++ "'" from rfl,
        String.data_append, String.data_append] at hc
      rcases List.mem_append.mp hc with h | h
      · rcases List.mem_append.mp h with h' | h'
        · exact absurd h' (by decide)
        · exact hu h'
      · exact absurd h (by decide)
  · intro he
    rw [if_pos he]
    exact String.append_empty _

/-- C2 witness: the amended claim at the user "Alice" and the member
types ApexClass and CustomObject. -/
theorem c2_in_clause_witness :
    generate_soql (some "Alice") ["ApexClass", "CustomObject"] =
      some (soqlFormattedBase "Alice" ++
        (if (["ApexClass", "CustomObject"] : List String).isEmpty then ""
          else soqlInClause ["ApexClass", "CustomObject"]))
    ∧ soqlInClause ["ApexClass", "CustomObject"] =
        " AND MemberType IN ('" ++ pyJoin "', '" ["ApexClass", "CustomObject"] ++ "')"
    ∧ ¬ (" IN (".data <:+: (soqlFormattedBase "Alice").data)
    ∧ ((["ApexClass", "CustomObject"] : List String).isEmpty →
        soqlFormattedBase "Alice" ++
          (if (["ApexClass", "CustomObject"] : List String).isEmpty then ""
            else soqlInClause ["ApexClass", "CustomObject"]) =
          soqlFormattedBase "Alice") :=
  c2_in_clause "Alice" ["ApexClass", "CustomObject"] (by decide) (by decide)

/-- C3 is false as stated: called with an empty `changed_by`,
`generate_soql` performs no validation and returns a query string (the
base query with the empty string substituted); no `ConfigurationError`
is raised — the class defines no such error. -/
theorem c3_empty_user_returns_query :
    generate_soql (some "") [] = some (soqlFormattedBase "") := by
  rfl

/-- C3 (amended): `generate_soql` itself never validates `changed_by` —
with the empty user it still returns a query string — but the UI layer
refuses to run the pipeline when the changed-by input is empty: the
tool is never constructed, the click ends in the "Tool is not
initialized" error, and no file changes. -/
theorem c3_no_validation_ui_guard (user apiv : String) (selected : List String)
    (resp : ToolingResponse) (fs : FileState) (h : user = "") :
    generate_soql (some user) [] = some (soqlFormattedBase "")
    ∧ run_final_click user apiv selected resp fs = (fs, RunOutcome.toolUninitialized) := by
  subst h
  constructor
  · rfl
  · unfold run_final_click
    rw [if_pos (Or.inl rfl)]

/-- C3 witness: the amended claim at the empty user with concrete
response and file state. -/
theorem c3_no_validation_ui_guard_witness :
    generate_soql (some "") [] = some (soqlFormattedBase "")
    ∧ run_final_click "" "60.0" [] ⟨200, "", []⟩ ⟨none, none⟩ =
        (⟨none, none⟩, RunOutcome.toolUninitialized) :=
  c3_no_validation_ui_guard "" "60.0" [] ⟨200, "", []⟩ ⟨none, none⟩ rfl

/-- C10: `str.format` runs last over the fully assembled query, so a
member type equal to the literal replacement field is substituted by the
configured user name — the supplied type does not appear in the result,
while the clause reads `IN ('Alice')` — and a member type with an
unmatched brace makes `generate_soql` raise instead of returning. -/
theorem c10_format_applied_last :
    generate_soql (some "Alice") [String.mk (lbrace :: "user_did_change".data ++ [rbrace])] =
      some "SELECT Id, LastModifiedBy.Name, MemberIdOrName, MemberType, MemberName, RevisionNum, RevisionCounter, IsNameObsolete, LastModifiedById, IsNewMember, ChangedBy FROM SourceMember WHERE LastModifiedBy.Name = 'Alice' AND MemberType IN ('Alice')"
    ∧ ¬ ((String.mk (lbrace :: "user_did_change".data ++ [rbrace])).data <:+:
        "SELECT Id, LastModifiedBy.Name, MemberIdOrName, MemberType, MemberName, RevisionNum, RevisionCounter, IsNameObsolete, LastModifiedById, IsNewMember, ChangedBy FROM SourceMember WHERE LastModifiedBy.Name = 'Alice' AND MemberType IN ('Alice')".data)
    ∧ generate_soql (some "Alice") [String.mk [lbrace, 'x']] = none := by
  refine ⟨rfl, ?_, rfl⟩
  apply not_infix_of_not_mem (c := lbrace)
  · exact List.mem_cons_self lbrace _
  · decide

theorem run_final_click_reduce (user apiv : String) (selected : List String)
    (resp : ToolingResponse) (fs : FileState) (q : String)
    (huser : user ≠ "") (hapiv : apiv ≠ "")
    (hq : generate_soql (some user) selected = some q) :
    run_final_click user apiv selected resp fs =
      match run_tooling_query resp with
      | .error e => (fs, .remoteError e)
      | .ok records =>
        match save_to_csv records with
        | .warned => pkgStep apiv fs true
        | .valueError partialTable => ({ fs with csv := some partialTable }, .csvWriteError)
        | .wrote table => pkgStep apiv { fs with csv := some table } false := by
  unfold run_final_click
  rw [if_neg (by push_neg; exact ⟨huser, hapiv⟩), hq]

/-- C4: when the single query request answers with a non-200 status, the
run fails with the remote-query error carrying exactly the response's
status code and body (whose message embeds both verbatim), and the file
state is unchanged — no CSV and no manifest is written.  The embedding
passes one response to one request, matching the source's single
`requests.get` with no retry. -/
theorem c4_non200_fails (user apiv : String) (selected : List String)
    (resp : ToolingResponse) (fs : FileState)
    (huser : user ≠ "") (hapiv : apiv ≠ "")
    (hq : (generate_soql (some user) selected).isSome)
    (hstatus : resp.status ≠ 200) :
    run_final_click user apiv selected resp fs =
      (fs, RunOutcome.remoteError ⟨resp.status, resp.body⟩)
    ∧ remoteErrorMessage ⟨resp.status, resp.body⟩ =
        "Failed to run query: " ++ toString resp.status ++ " " ++ resp.body := by
  obtain ⟨q, hq'⟩ := Option.isSome_iff_exists.mp hq
  refine ⟨?_, rfl⟩
  rw [run_final_click_reduce user apiv selected resp fs q huser hapiv hq']
  unfold run_tooling_query
  rw [if_pos hstatus]

/-- C4 witness: a 401 with body "invalid session" ends the run in the
remote error carrying 401 and that body, leaving both files absent. -/
theorem c4_non200_fails_witness :
    run_final_click "Alice" "60.0" [] ⟨401, "invalid session", []⟩ ⟨none, none⟩ =
      ((⟨none, none⟩ : FileState), RunOutcome.remoteError ⟨401, "invalid session"⟩)
    ∧ remoteErrorMessage ⟨401, "invalid session"⟩ =
        "Failed to run query: " ++ toString 401 ++ " " ++ "invalid session" :=
  c4_non200_fails "Alice" "60.0" [] ⟨401, "invalid session", []⟩ ⟨none, none⟩
    (by decide) (by decide) (by rfl) (by decide)

/-- C5 is false as stated: after the zero-records warning the pipeline
does not halt — with a stale CSV file left from an earlier run,
`generate_package_xml` still runs and a manifest is generated from the
stale rows. -/
theorem c5_stale_manifest :
    (run_final_click "Alice" "60.0" [] ⟨200, "", []⟩
        ⟨some [["MemberType", "MemberName"], ["ApexClass", "Old"]], none⟩).2 =
      RunOutcome.done true
    ∧ (run_final_click "Alice" "60.0" [] ⟨200, "", []⟩
        ⟨some [["MemberType", "MemberName"], ["ApexClass", "Old"]], none⟩).1.pkg =
      some (generate_package_xml "60.0" [⟨"ApexClass", "Old"⟩])
    ∧ some (generate_package_xml "60.0" [⟨"ApexClass", "Old"⟩]) ≠ (none : Option String) :=
  ⟨rfl, rfl, by simp⟩

/-- C5 (amended): with zero records the writer performs no write and
warns, and the CSV file is left untouched; the pipeline then proceeds to
manifest generation regardless: with no CSV file present it ends in the
file-not-found error and writes no manifest, while a readable leftover
CSV still yields a manifest built from its rows. -/
theorem c5_no_records_proceeds (user apiv : String) (selected : List String)
    (resp : ToolingResponse) (fs : FileState)
    (huser : user ≠ "") (hapiv : apiv ≠ "")
    (hq : (generate_soql (some user) selected).isSome)
    (h200 : resp.status = 200) (hrec : resp.records = []) :
    save_to_csv resp.records = CsvOutcome.warned
    ∧ (run_final_click user apiv selected resp fs).1.csv = fs.csv
    ∧ (fs.csv = none →
        run_final_click user apiv selected resp fs = (fs, RunOutcome.csvFileMissing))
    ∧ (∀ table rows, fs.csv = some table → smRowsOf table = some rows →
        run_final_click user apiv selected resp fs =
          ({ fs with pkg := some (generate_package_xml apiv rows) }, RunOutcome.done true)) := by
  obtain ⟨q, hq'⟩ := Option.isSome_iff_exists.mp hq
  have hwarn : save_to_csv resp.records = CsvOutcome.warned := by
    rw [hrec]
    rfl
  have hrt : run_tooling_query resp = .ok resp.records := by
    unfold run_tooling_query
    rw [if_neg (by simp [h200])]
  have hrun : run_final_click user apiv selected resp fs = pkgStep apiv fs true := by
    rw [run_final_click_reduce user apiv selected resp fs q huser hapiv hq', hrt]
    show (match save_to_csv resp.records with
      | CsvOutcome.warned => pkgStep apiv fs true
      | CsvOutcome.valueError partialTable =>
          ({ fs with csv := some partialTable }, RunOutcome.csvWriteError)
      | CsvOutcome.wrote table => pkgStep apiv { fs with csv := some table } false) =
      pkgStep apiv fs true
    rw [hwarn]
  refine ⟨hwarn, ?_, ?_, ?_⟩
  · rw [hrun]
    exact pkgStep_csv apiv fs true
  · intro hnone
    rw [hrun]
    exact pkgStep_missing apiv fs true hnone
  · intro table rows htab hrows
    rw [hrun]
    obtain ⟨csv0, pkg0⟩ := fs
    exact pkgStep_writes apiv csv0 pkg0 true table rows htab hrows

/-- C5 witness: the amended claim at a concrete 200/zero-records
response with no files present, ending in the file-not-found error. -/
theorem c5_no_records_proceeds_witness :
    run_final_click "Alice" "60.0" [] ⟨200, "", []⟩ ⟨none, none⟩ =
      ((⟨none, none⟩ : FileState), RunOutcome.csvFileMissing) :=
  (c5_no_records_proceeds "Alice" "60.0" [] ⟨200, "", []⟩ ⟨none, none⟩
    (by decide) (by decide) (by rfl) rfl rfl).2.2.1 rfl

/-- C8 is false as stated: a second record carrying a field missing from
the first record's field names makes the `DictWriter` row loop raise
`ValueError` mid-write instead of emitting one data row per record. -/
theorem c8_extra_field_value_error :
    save_to_csv [[("a", "1")], [("a", "2"), ("b", "3")]] =
      CsvOutcome.valueError [["a"], ["1"]] := by
  rfl

/-- C8 (amended): provided every record's field names are among the
first record's field names, the writer emits exactly one header row
holding the first record's field names in order, followed by exactly one
data row per record, each row's cells in the first record's field order
(missing fields becoming empty cells). -/
theorem c8_writer_shape (first : PyDict) (rest : List PyDict)
    (h : ∀ r ∈ first :: rest, ∀ kv ∈ r, kv.1 ∈ first.map Prod.fst) :
    save_to_csv (first :: rest) =
      CsvOutcome.wrote ((first.map Prod.fst) ::
        (first :: rest).map (fun r => (first.map Prod.fst).map (fun k => (dictGetStr r k).getD "")))
    ∧ ((first :: rest).map
        (fun r => (first.map Prod.fst).map (fun k => (dictGetStr r k).getD ""))).length =
      (first :: rest).length := by
  have hw := writeRows_complete (first.map Prod.fst) (first :: rest) h
  constructor
  · have key : save_to_csv (first :: rest) =
        (if (writeRows (first.map Prod.fst) (first :: rest)).2
          then CsvOutcome.wrote
            ((first.map Prod.fst) :: (writeRows (first.map Prod.fst) (first :: rest)).1)
          else CsvOutcome.valueError
            ((first.map Prod.fst) :: (writeRows (first.map Prod.fst) (first :: rest)).1)) := rfl
    rw [key, hw]
    rfl
  · simp

/-- C8 witness: two ApexClass records, the second with its two fields in
reversed order, written as a header and two rows normalised to the first
record's field order. -/
theorem c8_writer_shape_witness :
    save_to_csv [[("MemberType", "ApexClass"), ("MemberName", "Foo")],
        [("MemberName", "Bar"), ("MemberType", "ApexClass")]] =
      CsvOutcome.wrote
        ((([("MemberType", "ApexClass"), ("MemberName", "Foo")] : PyDict).map Prod.fst) ::
          ([[("MemberType", "ApexClass"), ("MemberName", "Foo")],
            [("MemberName", "Bar"), ("MemberType", "ApexClass")]] : List PyDict).map
            (fun r => (([("MemberType", "ApexClass"), ("MemberName", "Foo")] : PyDict).map Prod.fst).map
              (fun k => (dictGetStr r k).getD ""))) :=
  (c8_writer_shape [("MemberType", "ApexClass"), ("MemberName", "Foo")]
    [[("MemberName", "Bar"), ("MemberType", "ApexClass")]] (by decide)).1

/-- C9 is false as stated: the URL built on line 55 contains the SOQL
text verbatim; for a query containing spaces its URL-encoded form (with
%20 escapes) occurs nowhere in the request URL. -/
theorem c9_url_not_encoded :
    query_url "https://example.my.salesforce.com" "60.0" "SELECT Id FROM SourceMember" =
      "https://example.my.salesforce.com/services/data/v60.0/tooling/query?q=SELECT Id FROM SourceMember"
    ∧ urlQuote "SELECT Id FROM SourceMember" = "SELECT%20Id%20FROM%20SourceMember"
    ∧ ¬ ((urlQuote "SELECT Id FROM SourceMember").data <:+:
        (query_url "https://example.my.salesforce.com" "60.0" "SELECT Id FROM SourceMember").data) := by
  refine ⟨rfl, rfl, ?_⟩
  decide

/-- C9 (amended): the request URL always carries the query string
verbatim in its `q` parameter — the code performs no URL-encoding — and
this coincides with the URL-encoded form exactly when every character of
the query is one the encoding leaves unchanged. -/
theorem c9_url_verbatim (instance_url api_version q : String)
    (hq : ∀ c ∈ q.data, urlSafeChar c = true) :
    query_url instance_url api_version q =
      instance_url ++ "/services/data/v" ++ api_version ++ "/tooling/query?q=" ++ q
    ∧ urlQuote q = q
    ∧ query_url instance_url api_version q =
        instance_url ++ "/services/data/v" ++ api_version ++ "/tooling/query?q=" ++ urlQuote q := by
  have hquote : urlQuote q = q := by
    apply String.ext
    show q.data.foldr _ [] = q.data
    exact urlQuoteList_of_safe q.data hq
  refine ⟨rfl, hquote, ?_⟩
  rw [hquote]
  rfl

/-- C9 witness: the amended claim at a concrete all-safe query string. -/
theorem c9_url_verbatim_witness :
    query_url "https://example.my.salesforce.com" "60.0" "SourceMember" =
      "https://example.my.salesforce.com" ++ "/services/data/v" ++ "60.0" ++ "/tooling/query?q=" ++ "SourceMember"
    ∧ urlQuote "SourceMember" = "SourceMember"
    ∧ query_url "https://example.my.salesforce.com" "60.0" "SourceMember" =
        "https://example.my.salesforce.com" ++ "/services/data/v" ++ "60.0" ++ "/tooling/query?q=" ++ urlQuote "SourceMember" :=
  c9_url_verbatim "https://example.my.salesforce.com" "60.0" "SourceMember" (by decide)
